import Mathlib

/-!
TcpConnection (src/http/TcpConnection.C).

A shallow embedding of the four member functions of `http::server::TcpConnection`
(`stop`, `startAsyncReadRequest`, `startAsyncReadBody`, `startAsyncWriteResponse`)
as state transformers on a connection record, in the monad
`ExceptT Exn (StateM Conn)`: the state survives a raised exception, as the effects of
a C++ statement survive the exception raised by a later one.

`LOG_DEBUG` lines are debug tracing; they read `socket().native()` and change nothing,
so they are left out.
-/

namespace http.server

/-! ## Data model -/

/-- Memory region handed to asio (`asio::buffer(buffer)` or one `asio::const_buffer`):
where it starts and how many bytes it spans. -/
structure Buffer where
  addr : Nat
  size : Nat
deriving DecidableEq, Repr

/-- Completion handlers of the `Connection` base class that the source binds. -/
inductive Handler where
  | handleReadRequest
  | handleReadBody
  | handleWriteResponse
deriving DecidableEq, Repr

/-- Placeholders bound into the handler: `error` alone, or `error` and
`bytes_transferred`. -/
inductive Placeholders where
  | error
  | errorAndBytesTransferred
deriving DecidableEq, Repr

/-- Result of `boost::bind(&Connection::h, sft, placeholders...)`: the member function,
the connection that the bound `sft` points to, and the arguments the completion passes. -/
structure Continuation where
  handler : Handler
  target : Nat
  args : Placeholders
deriving DecidableEq, Repr

/-- Asynchronous operation issued on the socket, with the continuation it completes to. -/
inductive Op where
  | readSome (buffer : Buffer) (k : Continuation)
  | writeAll (buffers : List Buffer) (k : Continuation)
deriving DecidableEq, Repr

/-- Argument of `socket::shutdown`. -/
inductive ShutdownType where
  | shutdown_receive
  | shutdown_send
  | shutdown_both
deriving DecidableEq, Repr

/-- Calls a member function makes on its collaborators (base class, socket), recorded in
program order. -/
inductive Effect where
  | finishReply
  | shutdown (what : ShutdownType)
  | close
  | setReadTimeout (timeout : Int)
  | setWriteTimeout (timeout : Int)
  | issue (op : Op)
deriving DecidableEq, Repr

/-- Phase a deadline guards. -/
inductive TimerKind where
  | read
  | write
deriving DecidableEq, Repr

/-- Armed deadline of the Timer Guard. -/
structure Deadline where
  kind : TimerKind
  seconds : Int
deriving DecidableEq, Repr

/-- State of one connection object.
* `id`: identity of the object (`this`);
* `useCount`: number of strong (`shared_ptr`) references to it;
* `deadline`: the deadline currently armed, if any;
* `pending`: asynchronous operations issued and not yet completed, oldest first;
* `trace`: every call made so far, oldest first. -/
structure Conn where
  id : Nat
  useCount : Nat
  deadline : Option Deadline
  pending : List Op
  trace : List Effect
deriving DecidableEq, Repr

/-- Exceptions: `asio_system_error` (the only type `stop` catches) and anything else. -/
inductive Exn where
  | asio_system_error (ec : Int)
  | other (what : Nat)
deriving DecidableEq, Repr

/-- Value of a `boost::system::error_code`; `0` is success. -/
abbrev ErrorCode := Int

/-- Outcome of the throwing overload `socket_.close()`. -/
inductive CloseOutcome where
  | success
  | raised (ec : Int)
deriving DecidableEq, Repr

/-- Member functions run over the connection state and may raise. -/
abbrev M := ExceptT Exn (StateM Conn)

/-- Append one call to the trace. -/
def record (e : Effect) : M Unit :=
  modify fun c => { c with trace := c.trace ++ [e] }

/-! ## Collaborators -/

/-- Modelled from the spec: `Connection::finishReply` of the base class, which is not in
`TcpConnection.C`. It is the reply-finishing and notification step of the close path. What
it does to the state kept by the base class cannot be read off `TcpConnection.C`; the
model records that it was called and that it returned, and nothing stated below about
timers rests on it. -/
def finishReply : M Unit :=
  record .finishReply

/-- The call `socket_.shutdown(what, ec)`: the non-throwing overload; the error code the
system reports is handed back to the caller. -/
def socketShutdown (what : ShutdownType) (reported : ErrorCode) : M ErrorCode := do
  record (.shutdown what)
  pure reported

/-- The call `socket_.close()`: the throwing overload; a failure is raised as
`asio_system_error`. -/
def socketClose (outcome : CloseOutcome) : M Unit := do
  record .close
  match outcome with
  | .success => pure ()
  | .raised ec => throw (.asio_system_error ec)

/-! ## TcpConnection::stop -/

/-- Embedding of `TcpConnection::stop()`; `sd` is the error code the shutdown reports and
`cl` the outcome of the close. -/
def stop (sd : ErrorCode) (cl : CloseOutcome) : M Unit := do
  finishReply
  try
    let _ignored_ec ← socketShutdown .shutdown_both sd
    socketClose cl
  catch e =>
    match e with
    | .asio_system_error _ => pure ()
    | unhandled => throw unhandled

/-! ## Timer Guard -/

/-- Modelled from the spec: `Connection::setReadTimeout` of the base class, which is not in
`TcpConnection.C`. Timer Guard `arm`: starts a single-shot deadline for the read phase,
replacing any deadline armed before. -/
def setReadTimeout (timeout : Int) : M Unit := do
  record (.setReadTimeout timeout)
  modify fun c => { c with deadline := some { kind := .read, seconds := timeout } }

/-- Modelled from the spec: `Connection::setWriteTimeout` of the base class, which is not in
`TcpConnection.C`. Timer Guard `arm`: starts a single-shot deadline for the write phase,
replacing any deadline armed before. -/
def setWriteTimeout (timeout : Int) : M Unit := do
  record (.setWriteTimeout timeout)
  modify fun c => { c with deadline := some { kind := .write, seconds := timeout } }

/-! ## Shared ownership and asynchronous operations -/

/-- The expression `boost::dynamic_pointer_cast<TcpConnection>(shared_from_this())`: a new
strong reference to this connection. A connection object lives under `shared_ptr`
ownership, so the call succeeds and the cast of a `TcpConnection` is not null. -/
def sharedFromThis : M Nat := do
  modify fun c => { c with useCount := c.useCount + 1 }
  return (← get).id

/-- The expression `boost::bind(&Connection::handler, sft, placeholders...)`: the function
object stores a copy of `sft`, one more strong reference. -/
def boostBind (handler : Handler) (sft : Nat) (args : Placeholders) : M Continuation := do
  modify fun c => { c with useCount := c.useCount + 1 }
  return { handler := handler, target := sft, args := args }

/-- End of the scope of the local `sft`: its strong reference is dropped. -/
def releaseLocal (_sft : Nat) : M Unit :=
  modify fun c => { c with useCount := c.useCount - 1 }

/-- The call `socket_.async_read_some(asio::buffer(buffer), k)`: one partial read on the
socket is outstanding from now on; it owns the continuation. -/
def asyncReadSome (buffer : Buffer) (k : Continuation) : M Unit := do
  record (.issue (.readSome buffer k))
  modify fun c => { c with pending := c.pending ++ [.readSome buffer k] }

/-- The call `asio::async_write(socket_, buffers, k)`: one composed write of all the
buffers is outstanding from now on; it owns the continuation. -/
def asyncWrite (buffers : List Buffer) (k : Continuation) : M Unit := do
  record (.issue (.writeAll buffers k))
  modify fun c => { c with pending := c.pending ++ [.writeAll buffers k] }

/-! ## The three scheduling member functions -/

/-- Embedding of `TcpConnection::startAsyncReadRequest(Buffer& buffer, int timeout)`. -/
def startAsyncReadRequest (buffer : Buffer) (timeout : Int) : M Unit := do
  setReadTimeout timeout
  let sft ← sharedFromThis
  let k ← boostBind .handleReadRequest sft .errorAndBytesTransferred
  asyncReadSome buffer k
  releaseLocal sft

/-- Embedding of `TcpConnection::startAsyncReadBody(Buffer& buffer, int timeout)`. -/
def startAsyncReadBody (buffer : Buffer) (timeout : Int) : M Unit := do
  setReadTimeout timeout
  let sft ← sharedFromThis
  let k ← boostBind .handleReadBody sft .errorAndBytesTransferred
  asyncReadSome buffer k
  releaseLocal sft

/-- Embedding of `TcpConnection::startAsyncWriteResponse(buffers, int timeout)`. -/
def startAsyncWriteResponse (buffers : List Buffer) (timeout : Int) : M Unit := do
  setWriteTimeout timeout
  let sft ← sharedFromThis
  let k ← boostBind .handleWriteResponse sft .error
  asyncWrite buffers k
  releaseLocal sft

/-! ## Runs of a connection -/

/-- Delivery of the completion of the outstanding operation at position `i`: the
operation is no longer outstanding and, once its handler has run, the continuation with
its copy of `sft` is destroyed. What the handler itself does (base class code) shows up
as the events that follow. -/
def complete (i : Nat) (c : Conn) : Conn :=
  if i < c.pending.length then
    { c with pending := c.pending.eraseIdx i, useCount := c.useCount - 1 }
  else c

/-- Things that happen to a connection: a call of one of the four member functions, or
the delivery of a completion. -/
inductive Event where
  | startAsyncReadRequest (buffer : Buffer) (timeout : Int)
  | startAsyncReadBody (buffer : Buffer) (timeout : Int)
  | startAsyncWriteResponse (buffers : List Buffer) (timeout : Int)
  | stop (sd : ErrorCode) (cl : CloseOutcome)
  | complete (i : Nat)
deriving DecidableEq, Repr

/-- State after one event. -/
def step (e : Event) (c : Conn) : Conn :=
  match e with
  | .startAsyncReadRequest buffer timeout => ((startAsyncReadRequest buffer timeout).run c).2
  | .startAsyncReadBody buffer timeout => ((startAsyncReadBody buffer timeout).run c).2
  | .startAsyncWriteResponse buffers timeout =>
      ((startAsyncWriteResponse buffers timeout).run c).2
  | .stop sd cl => ((stop sd cl).run c).2
  | .complete i => complete i c

/-- Every state a connection passes through over a sequence of events, the first one
included. -/
def states : List Event → Conn → List Conn
  | [], c => [c]
  | e :: es, c => c :: states es (step e c)

/-- Whether an operation is a read. -/
def Op.isRead : Op → Bool
  | .readSome _ _ => true
  | .writeAll _ _ => false

/-- Whether an operation is a write. -/
def Op.isWrite : Op → Bool
  | .readSome _ _ => false
  | .writeAll _ _ => true

/-- Continuation an operation completes to. -/
def Op.continuation : Op → Continuation
  | .readSome _ k => k
  | .writeAll _ k => k

/-- Number of reads outstanding. -/
def reads (c : Conn) : Nat := c.pending.countP Op.isRead

/-- Number of writes outstanding. -/
def writes (c : Conn) : Nat := c.pending.countP Op.isWrite

/-! ## Disciplines on runs -/

/-- The precondition of the specification on issuing operations: a read is started only
when no read is outstanding, a write only when no write is outstanding. -/
def admissible (e : Event) (c : Conn) : Bool :=
  match e with
  | .startAsyncReadRequest _ _ => reads c == 0
  | .startAsyncReadBody _ _ => reads c == 0
  | .startAsyncWriteResponse _ _ => writes c == 0
  | .stop _ _ => true
  | .complete _ => true

/-- A sequence of events respects the precondition when each event is admissible in the
state it happens in. -/
def respects : List Event → Conn → Bool
  | [], _ => true
  | e :: es, c => admissible e c && respects es (step e c)

/-- Ownership invariant: there are at least as many strong references to the connection
as operations outstanding on it, and every outstanding operation completes to a handler
of this very connection. -/
def owned (c : Conn) : Prop :=
  c.pending.length ≤ c.useCount ∧ ∀ op ∈ c.pending, op.continuation.target = c.id

instance (c : Conn) : Decidable (owned c) := by
  unfold owned
  infer_instance

/-- The read pattern in the words of the specification: arm the read deadline with the
timeout, issue one partial read into the buffer, deliver its completion (error, bytes
transferred) to the handler `h` of this connection, which the operation keeps alive by
one strong reference. -/
def readPattern (h : Handler) (buffer : Buffer) (timeout : Int) (c : Conn) : Conn :=
  let op := Op.readSome buffer
    { handler := h, target := c.id, args := .errorAndBytesTransferred }
  { c with
    useCount := c.useCount + 1
    deadline := some { kind := .read, seconds := timeout }
    pending := c.pending ++ [op]
    trace := c.trace ++ [.setReadTimeout timeout, .issue op] }

/-! ## Sample states -/

/-- Connection just accepted: one owner, nothing armed, nothing issued. -/
def accepted : Conn :=
  { id := 7, useCount := 1, deadline := none, pending := [], trace := [] }

/-- Request buffer used in the examples. -/
def requestBuffer : Buffer := { addr := 4096, size := 8192 }

/-- Response byte ranges used in the examples: status line and headers, then the body. -/
def responseBuffers : List Buffer := [{ addr := 100, size := 17 }, { addr := 300, size := 42 }]

/-- One exchange on a connection: header read and its completion, body read and its
completion, response write and its completion, then the close. -/
def exchange : List Event :=
  [.startAsyncReadRequest requestBuffer 30, .complete 0,
   .startAsyncReadBody requestBuffer 30, .complete 0,
   .startAsyncWriteResponse responseBuffers 20, .complete 0,
   .stop 0 .success]

theorem stop_run (sd : ErrorCode) (cl : CloseOutcome) (c : Conn) :
    (stop sd cl).run c =
      (.ok (), { c with trace := c.trace ++ [.finishReply, .shutdown .shutdown_both, .close] }) := by
  have h : (stop sd cl).run c = (.ok (), { c with
      trace := c.trace ++ [.finishReply] ++ [.shutdown .shutdown_both] ++ [.close] }) := by
    cases cl <;> rfl
  rw [h]
  simp

theorem startAsyncReadRequest_run (buffer : Buffer) (timeout : Int) (c : Conn) :
    (startAsyncReadRequest buffer timeout).run c =
      (.ok (), { c with
        useCount := c.useCount + 1
        deadline := some { kind := .read, seconds := timeout }
        pending := c.pending ++ [.readSome buffer
          { handler := .handleReadRequest, target := c.id, args := .errorAndBytesTransferred }]
        trace := c.trace ++ [.setReadTimeout timeout, .issue (.readSome buffer
          { handler := .handleReadRequest, target := c.id,
            args := .errorAndBytesTransferred })] }) := by
  show (_, ({ trace := c.trace ++ [_] ++ [_], .. } : Conn)) = _
  simp

theorem startAsyncReadBody_run (buffer : Buffer) (timeout : Int) (c : Conn) :
    (startAsyncReadBody buffer timeout).run c =
      (.ok (), { c with
        useCount := c.useCount + 1
        deadline := some { kind := .read, seconds := timeout }
        pending := c.pending ++ [.readSome buffer
          { handler := .handleReadBody, target := c.id, args := .errorAndBytesTransferred }]
        trace := c.trace ++ [.setReadTimeout timeout, .issue (.readSome buffer
          { handler := .handleReadBody, target := c.id,
            args := .errorAndBytesTransferred })] }) := by
  show (_, ({ trace := c.trace ++ [_] ++ [_], .. } : Conn)) = _
  simp

theorem startAsyncWriteResponse_run (buffers : List Buffer) (timeout : Int) (c : Conn) :
    (startAsyncWriteResponse buffers timeout).run c =
      (.ok (), { c with
        useCount := c.useCount + 1
        deadline := some { kind := .write, seconds := timeout }
        pending := c.pending ++ [.writeAll buffers
          { handler := .handleWriteResponse, target := c.id, args := .error }]
        trace := c.trace ++ [.setWriteTimeout timeout, .issue (.writeAll buffers
          { handler := .handleWriteResponse, target := c.id, args := .error })] }) := by
  show (_, ({ trace := c.trace ++ [_] ++ [_], .. } : Conn)) = _
  simp

/-- After its call of `finishReply`, `stop` changes nothing but the record of calls, to
which it adds the shutdown and the close. -/
theorem stop_after_finishReply (sd : ErrorCode) (cl : CloseOutcome) (c : Conn) :
    ((stop sd cl).run c).2 =
      { (finishReply.run c).2 with
        trace := (finishReply.run c).2.trace ++ [.shutdown .shutdown_both, .close] } := by
  have h : (finishReply.run c).2 = { c with trace := c.trace ++ [.finishReply] } := rfl
  rw [stop_run, h]
  simp

/-- Without the handler of `stop`, a failing close does raise. -/
theorem socketClose_raises (ec : Int) (c : Conn) :
    ((socketClose (.raised ec)).run c).1 = .error (.asio_system_error ec) := by
  rfl

/-! ## stop -/

/-- C1: whatever error code the socket shutdown reports and whether the socket close
succeeds or raises an asio system error, `stop()` returns normally. -/
theorem stop_returns_normally (sd : ErrorCode) (cl : CloseOutcome) (c : Conn) :
    ((stop sd cl).run c).1 = .ok () := by
  rw [stop_run]

/-- C8: every execution of `stop()` performs `finishReply`, then the socket shutdown (of
both directions), then the socket close, each once, whatever the shutdown reported and
whatever the close did. -/
theorem stop_effects_in_order (sd : ErrorCode) (cl : CloseOutcome) (c : Conn) :
    ((stop sd cl).run c).2.trace =
      c.trace ++ [Effect.finishReply, Effect.shutdown .shutdown_both, Effect.close] := by
  rw [stop_run]

/-- C2, counterexample: on a connection just accepted, the second of two `stop()` calls
is not a no-op; over the two calls `finishReply`, the shutdown and the close run twice
each. -/
theorem stop_twice_repeats_effects :
    (step (.stop 0 .success) (step (.stop 0 .success) accepted) ≠
        step (.stop 0 .success) accepted) ∧
      (step (.stop 0 .success) (step (.stop 0 .success) accepted)).trace.count
        Effect.finishReply = 2 ∧
      (step (.stop 0 .success) (step (.stop 0 .success) accepted)).trace.count
        (Effect.shutdown .shutdown_both) = 2 ∧
      (step (.stop 0 .success) (step (.stop 0 .success) accepted)).trace.count
        Effect.close = 2 := by
  decide

/-- C2, amended: `stop()` has no guard; each call performs `finishReply`, the shutdown and
the close once, so two calls in a row perform each of them twice, in the order
`finishReply`, shutdown, close, `finishReply`, shutdown, close, and both calls return
normally. -/
theorem stop_twice_effects (sd₁ sd₂ : ErrorCode) (cl₁ cl₂ : CloseOutcome) (c : Conn) :
    ((stop sd₁ cl₁).run c).1 = .ok () ∧
      ((stop sd₂ cl₂).run ((stop sd₁ cl₁).run c).2).1 = .ok () ∧
      ((stop sd₂ cl₂).run ((stop sd₁ cl₁).run c).2).2.trace =
        c.trace ++ [Effect.finishReply, Effect.shutdown .shutdown_both, Effect.close,
          Effect.finishReply, Effect.shutdown .shutdown_both, Effect.close] := by
  simp [stop_run]

/-! ## startAsyncReadRequest -/

/-- C3: for every buffer and timeout `t`, `startAsyncReadRequest(buffer, t)` returns
normally, leaves the read deadline armed with exactly `t`, and performs exactly two calls
in this order: `setReadTimeout(t)`, then one partial read into exactly that buffer whose
completion (error, bytes transferred) goes to `handleReadRequest` of this connection;
that read is the one operation added to the outstanding ones. -/
theorem startAsyncReadRequest_arms_then_reads (buffer : Buffer) (t : Int) (c : Conn) :
    ((startAsyncReadRequest buffer t).run c).1 = .ok () ∧
      ((startAsyncReadRequest buffer t).run c).2.deadline =
        some { kind := .read, seconds := t } ∧
      ((startAsyncReadRequest buffer t).run c).2.trace =
        c.trace ++ [Effect.setReadTimeout t, Effect.issue (Op.readSome buffer
          { handler := .handleReadRequest, target := c.id,
            args := .errorAndBytesTransferred })] ∧
      ((startAsyncReadRequest buffer t).run c).2.pending =
        c.pending ++ [Op.readSome buffer
          { handler := .handleReadRequest, target := c.id,
            args := .errorAndBytesTransferred }] ∧
      ((startAsyncReadRequest buffer t).run c).2.id = c.id := by
  simp [startAsyncReadRequest_run]

/-- C5: for every list of byte ranges and timeout `t`, `startAsyncWriteResponse(buffers,
t)` returns normally, leaves the write deadline armed with exactly `t`, and performs
exactly two calls in this order: `setWriteTimeout(t)`, then one write of all the supplied
ranges in their order whose completion (error only) goes to `handleWriteResponse` of this
connection; that write is the one operation added to the outstanding ones, so the number
of outstanding reads is unchanged. -/
theorem startAsyncWriteResponse_arms_then_writes (buffers : List Buffer) (t : Int)
    (c : Conn) :
    ((startAsyncWriteResponse buffers t).run c).1 = .ok () ∧
      ((startAsyncWriteResponse buffers t).run c).2.deadline =
        some { kind := .write, seconds := t } ∧
      ((startAsyncWriteResponse buffers t).run c).2.trace =
        c.trace ++ [Effect.setWriteTimeout t, Effect.issue (Op.writeAll buffers
          { handler := .handleWriteResponse, target := c.id, args := .error })] ∧
      ((startAsyncWriteResponse buffers t).run c).2.pending =
        c.pending ++ [Op.writeAll buffers
          { handler := .handleWriteResponse, target := c.id, args := .error }] ∧
      reads ((startAsyncWriteResponse buffers t).run c).2 = reads c := by
  simp [startAsyncWriteResponse_run, reads, Op.isRead]

/-! ## startAsyncReadBody -/

/-- C9: for every buffer, timeout and connection state, `startAsyncReadBody` and
`startAsyncReadRequest` are both the read pattern of the specification (same deadline
armed with `t`, same single partial read into the same buffer, same result), the first
with the handler `handleReadBody` and the second with `handleReadRequest`. -/
theorem startAsyncReadBody_same_pattern (buffer : Buffer) (t : Int) (c : Conn) :
    (startAsyncReadBody buffer t).run c =
        (.ok (), readPattern .handleReadBody buffer t c) ∧
      (startAsyncReadRequest buffer t).run c =
        (.ok (), readPattern .handleReadRequest buffer t c) := by
  simp [startAsyncReadBody_run, startAsyncReadRequest_run, readPattern]

/-! ## Runs: one operation outstanding, shared ownership -/

theorem step_startAsyncReadRequest (buffer : Buffer) (t : Int) (c : Conn) :
    step (.startAsyncReadRequest buffer t) c = readPattern .handleReadRequest buffer t c := by
  simp [step, startAsyncReadRequest_run, readPattern]

theorem step_startAsyncReadBody (buffer : Buffer) (t : Int) (c : Conn) :
    step (.startAsyncReadBody buffer t) c = readPattern .handleReadBody buffer t c := by
  simp [step, startAsyncReadBody_run, readPattern]

theorem step_startAsyncWriteResponse (buffers : List Buffer) (t : Int) (c : Conn) :
    step (.startAsyncWriteResponse buffers t) c =
      { c with
        useCount := c.useCount + 1
        deadline := some { kind := .write, seconds := t }
        pending := c.pending ++ [.writeAll buffers
          { handler := .handleWriteResponse, target := c.id, args := .error }]
        trace := c.trace ++ [.setWriteTimeout t, .issue (.writeAll buffers
          { handler := .handleWriteResponse, target := c.id, args := .error })] } := by
  simp [step, startAsyncWriteResponse_run]

theorem step_stop (sd : ErrorCode) (cl : CloseOutcome) (c : Conn) :
    step (.stop sd cl) c =
      { c with trace := c.trace ++ [.finishReply, .shutdown .shutdown_both, .close] } := by
  simp [step, stop_run]

theorem reads_readPattern (h : Handler) (buffer : Buffer) (t : Int) (c : Conn) :
    reads (readPattern h buffer t c) = reads c + 1 ∧
      writes (readPattern h buffer t c) = writes c := by
  simp [readPattern, reads, writes, Op.isRead, Op.isWrite]

theorem reads_complete_le (i : Nat) (c : Conn) :
    reads (complete i c) ≤ reads c ∧ writes (complete i c) ≤ writes c := by
  unfold complete
  split
  · exact ⟨List.Sublist.countP_le Op.isRead (List.eraseIdx_sublist c.pending i),
      List.Sublist.countP_le Op.isWrite (List.eraseIdx_sublist c.pending i)⟩
  · exact ⟨le_refl _, le_refl _⟩

/-- One admissible event keeps at most one read and at most one write outstanding. -/
theorem step_keeps_one_outstanding (e : Event) (c : Conn) (hr : reads c ≤ 1)
    (hw : writes c ≤ 1) (ha : admissible e c = true) :
    reads (step e c) ≤ 1 ∧ writes (step e c) ≤ 1 := by
  cases e with
  | startAsyncReadRequest buffer t =>
    have h0 : reads c = 0 := by simpa [admissible] using ha
    rw [step_startAsyncReadRequest]
    have := reads_readPattern .handleReadRequest buffer t c
    omega
  | startAsyncReadBody buffer t =>
    have h0 : reads c = 0 := by simpa [admissible] using ha
    rw [step_startAsyncReadBody]
    have := reads_readPattern .handleReadBody buffer t c
    omega
  | startAsyncWriteResponse buffers t =>
    have h0 : writes c = 0 := by simpa [admissible] using ha
    rw [step_startAsyncWriteResponse]
    simp only [reads, writes] at *
    simp [Op.isRead, Op.isWrite, h0, hr]
  | stop sd cl =>
    rw [step_stop]
    exact ⟨hr, hw⟩
  | complete i =>
    have := reads_complete_le i c
    simp only [step]
    omega

theorem states_keep_one_outstanding (evs : List Event) :
    ∀ c : Conn, reads c ≤ 1 → writes c ≤ 1 → respects evs c = true →
      ∀ s ∈ states evs c, reads s ≤ 1 ∧ writes s ≤ 1 := by
  induction evs with
  | nil =>
    intro c hr hw _ s hs
    simp only [states, List.mem_singleton] at hs
    subst hs
    exact ⟨hr, hw⟩
  | cons e es ih =>
    intro c hr hw hresp s hs
    simp only [respects, Bool.and_eq_true] at hresp
    simp only [states, List.mem_cons] at hs
    rcases hs with hs | hs
    · subst hs
      exact ⟨hr, hw⟩
    · have hstep := step_keeps_one_outstanding e c hr hw hresp.1
      exact ih (step e c) hstep.1 hstep.2 hresp.2 s hs

/-- One event keeps the ownership invariant. -/
theorem step_keeps_owned (e : Event) (c : Conn) (h : owned c) : owned (step e c) := by
  obtain ⟨hlen, htgt⟩ := h
  cases e with
  | startAsyncReadRequest buffer t =>
    rw [step_startAsyncReadRequest]
    refine ⟨by simp [readPattern]; omega, ?_⟩
    intro op hop
    simp only [readPattern, List.mem_append, List.mem_singleton] at hop
    rcases hop with hop | hop
    · exact htgt op hop
    · subst hop; rfl
  | startAsyncReadBody buffer t =>
    rw [step_startAsyncReadBody]
    refine ⟨by simp [readPattern]; omega, ?_⟩
    intro op hop
    simp only [readPattern, List.mem_append, List.mem_singleton] at hop
    rcases hop with hop | hop
    · exact htgt op hop
    · subst hop; rfl
  | startAsyncWriteResponse buffers t =>
    rw [step_startAsyncWriteResponse]
    refine ⟨by simp; omega, ?_⟩
    intro op hop
    simp only [List.mem_append, List.mem_singleton] at hop
    rcases hop with hop | hop
    · exact htgt op hop
    · subst hop; rfl
  | stop sd cl =>
    rw [step_stop]
    exact ⟨hlen, htgt⟩
  | complete i =>
    simp only [step, complete]
    split
    · rename_i hi
      refine ⟨?_, ?_⟩
      · simp only [List.length_eraseIdx, hi, if_true]
        omega
      · intro op hop
        exact htgt op (List.mem_of_mem_eraseIdx hop)
    · exact ⟨hlen, htgt⟩

theorem states_keep_owned (evs : List Event) :
    ∀ c : Conn, owned c → ∀ s ∈ states evs c, owned s := by
  induction evs with
  | nil =>
    intro c h s hs
    simp only [states, List.mem_singleton] at hs
    subst hs
    exact h
  | cons e es ih =>
    intro c h s hs
    simp only [states, List.mem_cons] at hs
    rcases hs with hs | hs
    · subst hs
      exact h
    · exact ih (step e c) (step_keeps_owned e c h) s hs

/-- C6: from a state with no read outstanding, `startAsyncReadRequest` and
`startAsyncReadBody` each leave exactly one read outstanding; from a state with no write
outstanding, `startAsyncWriteResponse` leaves exactly one write outstanding; and over a
sequence of events that starts reads only when no read is outstanding and writes only
when no write is outstanding, every state passed through has at most one read and at
most one write outstanding. -/
theorem one_outstanding_operation (buffer : Buffer) (buffers : List Buffer) (t : Int)
    (evs : List Event) (c : Conn) :
    (reads c = 0 →
        reads (step (.startAsyncReadRequest buffer t) c) = 1 ∧
          reads (step (.startAsyncReadBody buffer t) c) = 1) ∧
      (writes c = 0 → writes (step (.startAsyncWriteResponse buffers t) c) = 1) ∧
      (reads c ≤ 1 → writes c ≤ 1 → respects evs c = true →
        ∀ s ∈ states evs c, reads s ≤ 1 ∧ writes s ≤ 1) := by
  refine ⟨?_, ?_, states_keep_one_outstanding evs c⟩
  · intro h
    rw [step_startAsyncReadRequest, step_startAsyncReadBody,
      (reads_readPattern .handleReadRequest buffer t c).1,
      (reads_readPattern .handleReadBody buffer t c).1, h]
    exact ⟨rfl, rfl⟩
  · intro h
    rw [step_startAsyncWriteResponse]
    simp only [writes] at *
    simp [Op.isWrite, h]

/-- Witness of `one_outstanding_operation`: a full exchange on a connection just
accepted. -/
theorem one_outstanding_operation_witness :
    reads accepted = 0 ∧ writes accepted = 0 ∧ respects exchange accepted = true ∧
      (reads (step (.startAsyncReadRequest requestBuffer 30) accepted) = 1 ∧
        reads (step (.startAsyncReadBody requestBuffer 30) accepted) = 1) ∧
      writes (step (.startAsyncWriteResponse responseBuffers 30) accepted) = 1 ∧
      ∀ s ∈ states exchange accepted, reads s ≤ 1 ∧ writes s ≤ 1 :=
  ⟨by decide, by decide, by decide,
    (one_outstanding_operation requestBuffer responseBuffers 30 exchange accepted).1
      (by decide),
    (one_outstanding_operation requestBuffer responseBuffers 30 exchange accepted).2.1
      (by decide),
    (one_outstanding_operation requestBuffer responseBuffers 30 exchange accepted).2.2
      (by decide) (by decide) (by decide)⟩

/-- C10: each of `startAsyncReadRequest`, `startAsyncReadBody` and
`startAsyncWriteResponse` adds one outstanding operation whose continuation is bound to
this same connection and raises the number of strong references to the connection by
one; and from a state where the strong references are at least as many as the
outstanding operations, all of them bound to this connection, this stays so in every
state passed through, whatever sequence of calls and completions follows. -/
theorem continuation_holds_strong_reference (buffer : Buffer) (buffers : List Buffer)
    (t : Int) (evs : List Event) (c : Conn) :
    (∀ e ∈ [Event.startAsyncReadRequest buffer t, Event.startAsyncReadBody buffer t,
          Event.startAsyncWriteResponse buffers t],
        ∃ op, (step e c).pending = c.pending ++ [op] ∧ op.continuation.target = c.id ∧
          (step e c).useCount = c.useCount + 1 ∧ (step e c).id = c.id) ∧
      (owned c → ∀ s ∈ states evs c, owned s) := by
  refine ⟨?_, states_keep_owned evs c⟩
  intro e he
  simp only [List.mem_cons, List.mem_singleton, List.not_mem_nil, or_false] at he
  rcases he with he | he | he
  · subst he
    rw [step_startAsyncReadRequest]
    exact ⟨Op.readSome buffer
      { handler := .handleReadRequest, target := c.id, args := .errorAndBytesTransferred },
      rfl, rfl, rfl, rfl⟩
  · subst he
    rw [step_startAsyncReadBody]
    exact ⟨Op.readSome buffer
      { handler := .handleReadBody, target := c.id, args := .errorAndBytesTransferred },
      rfl, rfl, rfl, rfl⟩
  · subst he
    rw [step_startAsyncWriteResponse]
    exact ⟨Op.writeAll buffers
      { handler := .handleWriteResponse, target := c.id, args := .error },
      rfl, rfl, rfl, rfl⟩

/-- Witness of `continuation_holds_strong_reference`: a full exchange on a connection
just accepted. -/
theorem continuation_holds_strong_reference_witness :
    owned accepted ∧
      (∀ e ∈ [Event.startAsyncReadRequest requestBuffer 30,
            Event.startAsyncReadBody requestBuffer 30,
            Event.startAsyncWriteResponse responseBuffers 30],
          ∃ op, (step e accepted).pending = accepted.pending ++ [op] ∧
            op.continuation.target = accepted.id ∧
            (step e accepted).useCount = accepted.useCount + 1 ∧
            (step e accepted).id = accepted.id) ∧
      ∀ s ∈ states exchange accepted, owned s :=
  ⟨by decide,
    (continuation_holds_strong_reference requestBuffer responseBuffers 30 exchange
      accepted).1,
    (continuation_holds_strong_reference requestBuffer responseBuffers 30 exchange
      accepted).2 (by decide)⟩

end http.server
